import Mathlib

/-!
Verification of `pkg/proxy/proxyCloud.go`.

Shallow embedding of the WebSocket reverse proxy handler `ServeHTTPCloud`, its
origin check `CheckOrigin` and the relay loop `copyMsgsCloud`.

Conventions of the embedding.

* A Go `string` is a Lean `String`; byte positions of the ASCII delimiters the
  program looks for (`,` `:` `[` `]` ...) are positions in the character list.
* `http.Header` (a Go `map[string][]string`) is an association list.  The order
  of the list is the order in which `range` visits the map, so a statement
  proved for every list holds for every iteration order.
* Library functions whose tables are not part of this repository
  (`strings.ToLower`, `url.Parse`) are fields of an environment `Env`; general
  theorems hold for every environment, concrete runs use `goEnv`.
* A Go panic (nil pointer dereference) is the result `none`.
-/

namespace Proxy

/-! ## Strings -/

/-- Go `strings.Split(s, sep)` for a one-character separator, on character lists. -/
def splitChars (sep : Char) : List Char → List (List Char)
  | [] => [[]]
  | c :: cs =>
    if c = sep then [] :: splitChars sep cs
    else
      match splitChars sep cs with
      | [] => [[c]]
      | p :: ps => (c :: p) :: ps

/-- Go `strings.Split(s, ",")`. -/
def Split (s : String) (sep : Char) : List String :=
  (splitChars sep s.data).map String.mk

/-- Go `unicode.IsSpace`: the Unicode White_Space property. -/
def isSpace (c : Char) : Bool :=
  let n := c.toNat
  n = 0x09 || n = 0x0A || n = 0x0B || n = 0x0C || n = 0x0D || n = 0x20 ||
  n = 0x85 || n = 0xA0 || n = 0x1680 || (0x2000 ≤ n && n ≤ 0x200A) ||
  n = 0x2028 || n = 0x2029 || n = 0x202F || n = 0x205F || n = 0x3000

/-- Go `strings.TrimSpace`: drop leading and trailing white space. -/
def TrimSpace (s : String) : String :=
  String.mk ((s.data.dropWhile isSpace).reverse.dropWhile isSpace).reverse

/-- ASCII part of Go `strings.ToLower`. -/
def asciiToLower (s : String) : String :=
  String.mk (s.data.map fun c => if 'A' ≤ c ∧ c ≤ 'Z' then Char.ofNat (c.toNat + 32) else c)

/-! ## `net/textproto`: canonical header keys -/

/-- Go `textproto.validHeaderFieldByte`: the RFC 7230 token characters. -/
def validHeaderFieldByte (c : Char) : Bool :=
  let n := c.toNat
  (0x30 ≤ n && n ≤ 0x39) || (0x41 ≤ n && n ≤ 0x5A) || (0x61 ≤ n && n ≤ 0x7A) ||
  n = 0x21 || n = 0x23 || n = 0x24 || n = 0x25 || n = 0x26 || n = 0x27 || n = 0x2A ||
  n = 0x2B || n = 0x2D || n = 0x2E || n = 0x5E || n = 0x5F || n = 0x60 || n = 0x7C ||
  n = 0x7E

/-- Second loop of Go `textproto.canonicalMIMEHeaderKey`: upper-case the first
letter and every letter after a dash, lower-case the others. -/
def canonChars : Bool → List Char → List Char
  | _, [] => []
  | upper, c :: cs =>
    let c1 :=
      if upper ∧ 'a' ≤ c ∧ c ≤ 'z' then Char.ofNat (c.toNat - 32)
      else if ¬ upper ∧ 'A' ≤ c ∧ c ≤ 'Z' then Char.ofNat (c.toNat + 32)
      else c
    c1 :: canonChars (c1 = '-') cs

/-- Go `textproto.CanonicalMIMEHeaderKey`: a key holding a byte that is not a
token character is returned unchanged. -/
def CanonicalMIMEHeaderKey (s : String) : String :=
  if s.data.all validHeaderFieldByte then String.mk (canonChars true s.data) else s

/-! ## `http.Header` -/

/-- Go `http.Header`, a `map[string][]string`. -/
abbrev Header := List (String × List String)

/-- Map index `h[k]` (no canonicalisation). -/
def mapGet : Header → String → Option (List String)
  | [], _ => none
  | (k1, v) :: rest, k => if k1 = k then some v else mapGet rest k

/-- Map delete `delete(h, k)`. -/
def mapDel (h : Header) (k : String) : Header :=
  h.filter fun kv => decide (kv.1 ≠ k)

/-- Map store `h[k] = v`. -/
def mapSet (h : Header) (k : String) (v : List String) : Header :=
  (k, v) :: mapDel h k

/-- The keys of the map. -/
def keys (h : Header) : List String := h.map Prod.fst

/-- Go `Header.Get`: first value under the canonical key, or the empty string. -/
def Header.Get (h : Header) (key : String) : String :=
  match mapGet h (CanonicalMIMEHeaderKey key) with
  | some (v :: _) => v
  | _ => ""

/-- Go `Header.Set`: replace the values under the canonical key by one value. -/
def Header.Set (h : Header) (key value : String) : Header :=
  mapSet h (CanonicalMIMEHeaderKey key) [value]

/-- Go `Header.Add`: append a value under the canonical key. -/
def Header.Add (h : Header) (key value : String) : Header :=
  mapSet h (CanonicalMIMEHeaderKey key)
    ((mapGet h (CanonicalMIMEHeaderKey key)).getD [] ++ [value])

/-- Go `Header.Del`: delete the canonical key. -/
def Header.Del (h : Header) (key : String) : Header :=
  mapDel h (CanonicalMIMEHeaderKey key)

/-! ## `net/url`: the part of `url.Parse` that decides the `Host` field -/

/-- Go `url.URL`, restricted to the fields this program reads. -/
structure URL where
  Scheme : String
  Host : String
  deriving DecidableEq, Repr

/-- First position of `c` in `s` (Go `strings.IndexByte`), `none` for `-1`. -/
def indexByte (c : Char) : List Char → Option Nat
  | [] => none
  | d :: ds => if d = c then some 0 else (indexByte c ds).map (· + 1)

/-- Last position of `c` in `s` (Go `strings.LastIndexByte`), `none` for `-1`. -/
def lastIndexByte (c : Char) (s : List Char) : Option Nat :=
  (indexByte c s.reverse).map fun j => s.length - 1 - j

/-- First position at which `pat` occurs in `s` (Go `strings.Index`). -/
def indexOfSub (pat : List Char) : List Char → Option Nat
  | [] => if pat = [] then some 0 else none
  | c :: cs =>
    if pat.isPrefixOf (c :: cs) then some 0 else (indexOfSub pat cs).map (· + 1)

/-- Go `url.stringContainsCTLByte`. -/
def stringContainsCTLByte (s : List Char) : Bool :=
  s.any fun c => c.toNat < 0x20 || c.toNat = 0x7f

def isLetter (c : Char) : Bool := ('a' ≤ c && c ≤ 'z') || ('A' ≤ c && c ≤ 'Z')

def isDigit (c : Char) : Bool := '0' ≤ c && c ≤ '9'

/-- Go `url.ishex`. -/
def ishex (c : Char) : Bool :=
  isDigit c || ('a' ≤ c && c ≤ 'f') || ('A' ≤ c && c ≤ 'F')

/-- Go `url.unhex`. -/
def unhex (c : Char) : Nat :=
  if isDigit c then c.toNat - 48
  else if 'a' ≤ c && c ≤ 'f' then c.toNat - 97 + 10
  else if 'A' ≤ c && c ≤ 'F' then c.toNat - 65 + 10
  else 0

/-- Go `url.getScheme`: `none` is the error `missing protocol scheme`, otherwise
the scheme and the rest. -/
def getSchemeAux (raw : List Char) : Nat → List Char → Option (List Char × List Char)
  | _, [] => some ([], raw)
  | i, c :: cs =>
    if isLetter c then getSchemeAux raw (i + 1) cs
    else if isDigit c || c = '+' || c = '-' || c = '.' then
      if i = 0 then some ([], raw) else getSchemeAux raw (i + 1) cs
    else if c = ':' then
      if i = 0 then none else some (raw.take i, cs)
    else some ([], raw)

def getScheme (raw : List Char) : Option (List Char × List Char) :=
  getSchemeAux raw 0 raw

/-- Go `url.shouldEscape(c, encodeHost)`. -/
def shouldEscapeHost (c : Char) : Bool :=
  !(isLetter c || isDigit c ||
    "!$&()*+,;=:[]<>\"".data.contains c || c.toNat = 0x27 ||
    "-_.~".data.contains c)

/-- The error check of Go `url.unescape` for the modes that decode nothing the
program reads (path, fragment, user and password): every `%` is followed by
two hex digits. -/
def escapesOk : List Char → Bool
  | [] => true
  | c :: rest =>
    if c = '%' then
      match rest with
      | a :: b :: rest2 => ishex a && ishex b && escapesOk rest2
      | _ => false
    else escapesOk rest

/-- Go `url.unescape(s, encodeHost)` (`zone = false`) and
`url.unescape(s, encodeZone)` (`zone = true`); `none` is an error.  A decoded
byte is written as the character with that code. -/
def unescapeHost (zone : Bool) : List Char → Option (List Char)
  | [] => some []
  | c :: rest =>
    if c = '%' then
      match rest with
      | a :: b :: rest2 =>
        if !(ishex a && ishex b) then none
        else if !zone && unhex a < 8 && !(a = '2' && b = '5') then none
        else if zone && !(a = '2' && b = '5') && 16 * unhex a + unhex b ≠ 0x20 &&
            shouldEscapeHost (Char.ofNat (16 * unhex a + unhex b)) then none
        else (unescapeHost zone rest2).map (Char.ofNat (16 * unhex a + unhex b) :: ·)
      | _ => none
    else if c.toNat < 0x80 && shouldEscapeHost c then none
    else (unescapeHost zone rest).map (c :: ·)

/-- Go `url.validOptionalPort`. -/
def validOptionalPort : List Char → Bool
  | [] => true
  | c :: rest => c = ':' && rest.all isDigit

/-- Go `url.parseHost`. -/
def parseHost (host : List Char) : Option (List Char) :=
  let plain := unescapeHost false host
  if host.head? = some '[' then
    match lastIndexByte ']' host with
    | none => none
    | some i =>
      if !validOptionalPort (host.drop (i + 1)) then none
      else
        match indexOfSub "%25".data (host.take i) with
        | some zone =>
          match unescapeHost false (host.take zone),
              unescapeHost true ((host.take i).drop zone),
              unescapeHost false (host.drop i) with
          | some host1, some host2, some host3 => some (host1 ++ host2 ++ host3)
          | _, _, _ => none
        | none => plain
  else
    match lastIndexByte ':' host with
    | some i => if !validOptionalPort (host.drop i) then none else plain
    | none => plain

/-- Go `url.validUserinfo`. -/
def validUserinfo (s : List Char) : Bool :=
  s.all fun c => isLetter c || isDigit c ||
    "-._:~!$&()*+,;=%@".data.contains c || c.toNat = 0x27

/-- Go `url.parseAuthority`, the host result; `none` is an error. -/
def parseAuthority (authority : List Char) : Option (List Char) :=
  match lastIndexByte '@' authority with
  | none => parseHost authority
  | some i =>
    match parseHost (authority.drop (i + 1)) with
    | none => none
    | some host =>
      let userinfo := authority.take i
      if !validUserinfo userinfo then none
      else
        match indexByte ':' userinfo with
        | none => if escapesOk userinfo then some host else none
        | some j =>
          if escapesOk (userinfo.take j) && escapesOk (userinfo.drop (j + 1)) then some host
          else none

/-- Go `url.parse(rawURL, false)`; `none` is `(nil, err)`. -/
def parseURL (rawURL : List Char) : Option URL :=
  if stringContainsCTLByte rawURL then none
  else if rawURL = ['*'] then some ⟨"", ""⟩
  else
    match getScheme rawURL with
    | none => none
    | some (scheme0, rest0) =>
      let scheme := asciiToLower (String.mk scheme0)
      let rest :=
        match indexByte '?' rest0 with
        | some q => rest0.take q
        | none => rest0
      if rest.head? ≠ some '/' ∧ scheme ≠ "" then some ⟨scheme, ""⟩
      else if rest.head? ≠ some '/' ∧
          ((splitChars '/' rest).head?.getD []).contains ':' then none
      else if (scheme ≠ "" ∨ ¬ "///".data.isPrefixOf rest) ∧ "//".data.isPrefixOf rest then
        let afterSlashes := rest.drop 2
        let authority :=
          match indexByte '/' afterSlashes with
          | some i => afterSlashes.take i
          | none => afterSlashes
        let path :=
          match indexByte '/' afterSlashes with
          | some i => afterSlashes.drop i
          | none => []
        match parseAuthority authority with
        | none => none
        | some host => if escapesOk path then some ⟨scheme, String.mk host⟩ else none
      else if escapesOk rest then some ⟨scheme, ""⟩ else none

/-- Go `url.Parse`: cut the fragment off, parse, then set the fragment. -/
def urlParse (rawURL : String) : Option URL :=
  let u :=
    match indexByte '#' rawURL.data with
    | some i => rawURL.data.take i
    | none => rawURL.data
  let frag :=
    match indexByte '#' rawURL.data with
    | some i => rawURL.data.drop (i + 1)
    | none => []
  match parseURL u with
  | none => none
  | some url => if escapesOk frag then some url else none

/-! ## `net.SplitHostPort` -/

/-- Go `net.SplitHostPort`: host, port and the error text.  On an error both
strings are empty. -/
def SplitHostPort (hostport : String) : String × String × Option String :=
  let hp := hostport.data
  match lastIndexByte ':' hp with
  | none => ("", "", some "missing port in address")
  | some i =>
    if hp.head? = some '[' then
      match indexByte ']' hp with
      | none => ("", "", some "missing ']' in address")
      | some e =>
        if e + 1 = hp.length then ("", "", some "missing port in address")
        else if e + 1 = i then
          if (indexByte '[' (hp.drop 1)).isSome then ("", "", some "unexpected '[' in address")
          else if (indexByte ']' (hp.drop (e + 1))).isSome then
            ("", "", some "unexpected ']' in address")
          else (String.mk ((hp.take e).drop 1), String.mk (hp.drop (i + 1)), none)
        else if (hp.drop (e + 1)).head? = some ':' then
          ("", "", some "too many colons in address")
        else ("", "", some "missing port in address")
    else
      let host := hp.take i
      if (indexByte ':' host).isSome then ("", "", some "too many colons in address")
      else if (indexByte '[' hp).isSome then ("", "", some "unexpected '[' in address")
      else if (indexByte ']' hp).isSome then ("", "", some "unexpected ']' in address")
      else (String.mk host, String.mk (hp.drop (i + 1)), none)

/-! ## Environment -/

/-- Library functions the handler calls. -/
structure Env where
  /-- Go `strings.ToLower`. -/
  ToLower : String → String
  /-- Go `url.Parse`; `none` is the result `(nil, err)`. -/
  Parse : String → Option URL

/-- The environment used for concrete runs. -/
def goEnv : Env := ⟨asciiToLower, urlParse⟩

/-! ## The origin check -/

/-- The `CheckOrigin` closure of `ServeHTTPCloud` (lines 222-252).  `configOrigin`
is the configured `p.config.Origin`, `header` the request header map.  The results
of both `url.Parse` calls are dereferenced without looking at the error, so a
failed parse is a nil pointer dereference: `none`. -/
def CheckOrigin (env : Env) (configOrigin : String) (header : Header) : Option Bool :=
  let origin := (mapGet header "Origin").getD []
  if configOrigin = "" then some true
  else
    match origin with
    | [] => some false
    | origin0 :: _ =>
      match env.Parse configOrigin with
      | none => none
      | some pOriginParsed =>
        let pHost := (SplitHostPort pOriginParsed.Host).1
        match env.Parse origin0 with
        | none => none
        | some rOriginParsed =>
          let rHost := (SplitHostPort rOriginParsed.Host).1
          if pHost = rHost then some true else some false

/-! ## The handler `ServeHTTPCloud` -/

/-- The struct `ConfigCloud` (lines 22-27); the TLS settings play no part here. -/
structure ConfigCloud where
  HeaderBlacklist : List String
  Endpoint : URL
  Origin : String

/-- The package variable `headerBlacklistCloud` (line 90). -/
def headerBlacklistCloud : List String := ["X-CSRFToken"]

/-- The local `websocketHeaders` (lines 175-182). -/
def websocketHeaders : List String :=
  ["Connection", "Sec-Websocket-Extensions", "Sec-Websocket-Key", "Sec-Websocket-Version",
    "Upgrade"]

/-- An inbound request: its header map and the key/value pairs of its query
string in the order `url.ParseQuery` appends them to `r.URL.Query()`. -/
structure Request where
  Header : Header
  Query : List (String × String)

/-- The map index `r.URL.Query()[key]`: the values of `key` in order; the empty
list stands for an absent key. -/
def queryValues (query : List (String × String)) (key : String) : List String :=
  query.filterMap fun kv => if kv.1 = key then some kv.2 else none

/-- Lines 100-108: some `Upgrade` value is `websocket` in lower case. -/
def isWebsocket (env : Env) (h : Header) : Bool :=
  ((mapGet h "Upgrade").getD []).any fun upgrade => decide (env.ToLower upgrade = "websocket")

/-- Lines 110-112: delete the names of `headerBlacklistCloud` from the request. -/
def stripBlacklist (h : Header) : Header :=
  headerBlacklistCloud.foldl Header.Del h

/-- Lines 139-171: the two inner loops over the values of the
`Sec-Websocket-Protocol` entry. -/
def protocolLoop (acc : Header × String) (value : List String) : Header × String :=
  value.foldl
    (fun acc protocols =>
      (Split protocols ',').foldl
        (fun acc protocol =>
          (Header.Set acc.1 "Sec-Websocket-Protocol" (TrimSpace protocol), TrimSpace protocol))
        acc)
    acc

/-- Lines 132-172: one round of the loop over the request header map.  The
state is `(proxiedHeader, subProtocol)`. -/
def copyStep (rHeader : Header) (acc : Header × String) (kv : String × List String) :
    Header × String :=
  if kv.1 ≠ "Sec-Websocket-Protocol" then
    (Header.Set acc.1 kv.1 (Header.Get rHeader kv.1), acc.2)
  else protocolLoop acc kv.2

/-- Lines 130-172: `subProtocol := ""`, `proxiedHeader := make(http.Header)` and
the loop over `r.Header`. -/
def copyHeaders (rHeader : Header) : Header × String :=
  rHeader.foldl (copyStep rHeader) ([], "")

/-- Lines 192-195: add the bearer token of the query string. -/
def addToken (h : Header) (query : List (String × String)) : Header :=
  match queryValues query "token" with
  | [] => h
  | token0 :: _ =>
    if token0.length > 0 then Header.Add h "Authorization" ("Bearer " ++ token0) else h

/-- Lines 130-195: the header set for the backend dial and the selected
subprotocol, from the request header map (blacklist already applied). -/
def proxiedHeaderOf (rHeader : Header) (query : List (String × String)) : Header × String :=
  let copied := copyHeaders rHeader
  let filtered := websocketHeaders.foldl Header.Del copied.1
  (addToken (Header.Add filtered "Origin" "http://localhost") query, copied.2)

/-- What `dialer.Dial` returns: a connection, or an error with the status code
of the response when there is one. -/
inductive DialResult where
  | ok
  | failed (respStatusCode : Option Nat)
  deriving DecidableEq, Repr

/-- The behaviour of the peers during one request: the result of the backend
dial, whether the client handshake passes the checks `Upgrader.Upgrade` makes
before it calls `CheckOrigin`, and whether the steps after it succeed. -/
structure World where
  dial : DialResult
  handshakeOk : Bool
  hijackOk : Bool

/-- Observable steps of one run of the handler. -/
inductive Event where
  | passthrough (h : Header)
  | dial (h : Header)
  | httpError (statusCode : Nat)
  | upgrade (subprotocols : List String)
  | upgradeFailed
  | frontendOpen
  | relay
  | tickerStop
  | frontendClose
  | backendClose
  | panic
  deriving DecidableEq, Repr

/-- Lines 204-215: the status code sent after a failed dial. -/
def dialStatusCode : Option Nat → Nat
  | none => 502
  | some 0 => 502
  | some statusCode => statusCode

/-- Result of gorilla `Upgrader.Upgrade`. -/
inductive UpgradeResult where
  | established
  | failed
  | panic
  deriving DecidableEq, Repr

/-- Gorilla `Upgrader.Upgrade`: handshake checks, then `CheckOrigin` (a false
answer is the error `request origin not allowed`), then the hijack. -/
def Upgrade (w : World) (checkOrigin : Option Bool) : UpgradeResult :=
  if !w.handshakeOk then UpgradeResult.failed
  else
    match checkOrigin with
    | none => UpgradeResult.panic
    | some false => UpgradeResult.failed
    | some true => if w.hijackOk then UpgradeResult.established else UpgradeResult.failed

/-- The handler `ServeHTTPCloud` (lines 93-289) as the list of its observable
steps.  The rewriting of the dial URL (lines 119-128) does not touch the headers
and is left out.  The two relay goroutines and the ping loop are the single step
`relay`; the deferred calls run in reverse order of their registration. -/
def ServeHTTPCloud (env : Env) (cfg : ConfigCloud) (w : World) (r : Request) : List Event :=
  let websocket := isWebsocket env r.Header
  let rHeader := stripBlacklist r.Header
  if !websocket then [Event.passthrough rHeader]
  else
    let proxied := proxiedHeaderOf rHeader r.Query
    match w.dial with
    | DialResult.failed resp => [Event.dial proxied.1, Event.httpError (dialStatusCode resp)]
    | DialResult.ok =>
      Event.dial proxied.1 :: Event.upgrade [proxied.2] ::
        match Upgrade w (CheckOrigin env cfg.Origin rHeader) with
        | UpgradeResult.panic => [Event.panic, Event.backendClose]
        | UpgradeResult.failed => [Event.upgradeFailed, Event.backendClose]
        | UpgradeResult.established =>
          [Event.frontendOpen, Event.relay, Event.tickerStop, Event.frontendClose,
            Event.backendClose]

/-! ## The relay loop `copyMsgsCloud` -/

/-- A WebSocket message: frame type and payload. -/
structure Message where
  messageType : Int
  msg : List UInt8
  deriving DecidableEq, Repr

/-- The result of one `src.ReadMessage()`. -/
inductive ReadResult where
  | msg (m : Message)
  | err (e : String)
  deriving DecidableEq, Repr

/-- One step of the relay loop. -/
inductive IOEvent where
  | read (res : ReadResult)
  | lock
  | write (m : Message) (err : Option String)
  | unlock
  deriving DecidableEq, Repr

/-- The outcome of `copyMsgsCloud`: its steps and the error it returns; `ret` is
`none` when the source has no further result, so that the loop is still blocked
in `ReadMessage`. -/
structure CopyResult where
  trace : List IOEvent
  ret : Option String
  deriving DecidableEq, Repr

/-- The function `copyMsgsCloud` (lines 291-310).  `writeMutex` tells whether the
mutex argument is non-nil, `dest n m` is the error of the write of `m` when `n`
writes came before it, `src` lists the results of the successive reads. -/
def copyMsgsCloudFrom (writeMutex : Bool) (dest : Nat → Message → Option String) :
    Nat → List ReadResult → CopyResult
  | _, [] => ⟨[], none⟩
  | _, ReadResult.err e :: _ => ⟨[IOEvent.read (ReadResult.err e)], some e⟩
  | n, ReadResult.msg m :: rest =>
    let steps :=
      if writeMutex then
        [IOEvent.read (ReadResult.msg m), IOEvent.lock, IOEvent.write m (dest n m),
          IOEvent.unlock]
      else [IOEvent.read (ReadResult.msg m), IOEvent.write m (dest n m)]
    match dest n m with
    | some e => ⟨steps, some e⟩
    | none =>
      ⟨steps ++ (copyMsgsCloudFrom writeMutex dest (n + 1) rest).trace,
        (copyMsgsCloudFrom writeMutex dest (n + 1) rest).ret⟩

/-- The function `copyMsgsCloud` on a fresh destination. -/
def copyMsgsCloud (writeMutex : Bool) (dest : Nat → Message → Option String)
    (src : List ReadResult) : CopyResult :=
  copyMsgsCloudFrom writeMutex dest 0 src

/-! ## Predicates used in the statements -/

/-- Every key of the map is in canonical form, as in every header map the Go
HTTP server builds from a request. -/
def canonicalKeys (h : Header) : Prop :=
  ∀ k ∈ keys h, CanonicalMIMEHeaderKey k = k

instance (h : Header) : Decidable (canonicalKeys h) :=
  inferInstanceAs (Decidable (∀ k ∈ keys h, CanonicalMIMEHeaderKey k = k))

/-- The subprotocols a `Sec-Websocket-Protocol` value list offers: the entries
between the commas of each value, trimmed, in order. -/
def offered (value : List String) : List String :=
  value.flatMap fun protocols => (Split protocols ',').map TrimSpace

/-- The first value of a header, the way `Header.Get` reads it. -/
def firstValue (vs : List String) : String := vs.head?.getD ""

/-- The messages read successfully before the first failing read. -/
def readBeforeError : List ReadResult → List Message
  | ReadResult.msg m :: rest => m :: readBeforeError rest
  | _ => []

/-- The error of the first failing read. -/
def firstReadError : List ReadResult → Option String
  | [] => none
  | ReadResult.err e :: _ => some e
  | ReadResult.msg _ :: rest => firstReadError rest

/-- Position and error of the first failing write when the messages `ms` are
written in order after `n` earlier writes. -/
def firstWriteFailure (dest : Nat → Message → Option String) :
    Nat → List Message → Option (Nat × String)
  | _, [] => none
  | n, m :: ms =>
    match dest n m with
    | some e => some (0, e)
    | none => (firstWriteFailure dest (n + 1) ms).map fun p => (p.1 + 1, p.2)

/-- The messages handed to `dest.WriteMessage`, in order. -/
def writesOf : List IOEvent → List Message
  | [] => []
  | IOEvent.write m _ :: rest => m :: writesOf rest
  | _ :: rest => writesOf rest

/-- The messages whose write succeeded, in order. -/
def deliveredOf : List IOEvent → List Message
  | [] => []
  | IOEvent.write m none :: rest => m :: deliveredOf rest
  | _ :: rest => deliveredOf rest

/-- The results of the reads performed, in order. -/
def readsOf : List IOEvent → List ReadResult
  | [] => []
  | IOEvent.read res :: rest => res :: readsOf rest
  | _ :: rest => readsOf rest

/-- The reads and writes of a run, without the mutex steps. -/
def ioOps : List IOEvent → List IOEvent
  | [] => []
  | IOEvent.lock :: rest => ioOps rest
  | IOEvent.unlock :: rest => ioOps rest
  | ev :: rest => ev :: ioOps rest

/-- The names the header copy leaves aside: `Sec-Websocket-Protocol`, the
built-in blacklist, the five connection-management headers, `Origin` and
`Authorization`. -/
def setAsideNames : List String :=
  ["Sec-Websocket-Protocol", "X-Csrftoken", "Connection", "Sec-Websocket-Extensions",
    "Sec-Websocket-Key", "Sec-Websocket-Version", "Upgrade", "Origin", "Authorization"]

/-! ## Maps -/

theorem mapGet_mapDel (h : Header) (k k1 : String) :
    mapGet (mapDel h k) k1 = if k1 = k then none else mapGet h k1 := by
  induction h with
  | nil => simp [mapDel, mapGet]
  | cons kv rest ih =>
    obtain ⟨a, v⟩ := kv
    unfold mapDel at ih ⊢
    by_cases ha : a = k
    · subst ha
      rw [List.filter_cons_of_neg (by simp), ih]
      by_cases hk : k1 = a
      · simp [hk]
      · have : ¬ a = k1 := fun e => hk e.symm
        simp [hk, mapGet, this]
    · rw [List.filter_cons_of_pos (by simpa using ha)]
      simp only [mapGet]
      rw [ih]
      by_cases hk : k1 = k
      · subst hk
        simp [ha]
      · simp [hk]

theorem mapGet_mapSet (h : Header) (k k1 : String) (v : List String) :
    mapGet (mapSet h k v) k1 = if k = k1 then some v else mapGet h k1 := by
  unfold mapSet
  simp only [mapGet]
  by_cases hk : k = k1
  · simp [hk]
  · have : ¬ k1 = k := fun e => hk e.symm
    simp [hk, mapGet_mapDel, this]

theorem mapGet_eq_none_iff (h : Header) (k : String) : mapGet h k = none ↔ k ∉ keys h := by
  induction h with
  | nil => simp [mapGet, keys]
  | cons kv rest ih =>
    obtain ⟨a, v⟩ := kv
    simp only [mapGet, keys, List.map_cons, List.mem_cons, not_or] at ih ⊢
    by_cases ha : a = k
    · simp [ha]
    · have : ¬ k = a := fun e => ha e.symm
      simp [ha, this, ih, keys]

theorem mem_keys_iff (h : Header) (k : String) : k ∈ keys h ↔ ∃ vs, mapGet h k = some vs := by
  by_cases hm : k ∈ keys h
  · simp only [hm, true_iff]
    cases hg : mapGet h k with
    | none => exact absurd hm ((mapGet_eq_none_iff h k).1 hg)
    | some vs => exact ⟨vs, rfl⟩
  · simp [hm, (mapGet_eq_none_iff h k).2 hm]

theorem keys_mapDel_subset (h : Header) (k : String) : ∀ a ∈ keys (mapDel h k), a ∈ keys h := by
  intro a ha
  rw [mem_keys_iff] at ha ⊢
  obtain ⟨vs, hvs⟩ := ha
  rw [mapGet_mapDel] at hvs
  by_cases hk : a = k
  · simp [hk] at hvs
  · exact ⟨vs, by simpa [hk] using hvs⟩

theorem get_Set (h : Header) (key value k : String) :
    mapGet (Header.Set h key value) k =
      if CanonicalMIMEHeaderKey key = k then some [value] else mapGet h k := by
  unfold Header.Set
  exact mapGet_mapSet h _ k _

theorem get_Add (h : Header) (key value k : String) :
    mapGet (Header.Add h key value) k =
      if CanonicalMIMEHeaderKey key = k then some ((mapGet h k).getD [] ++ [value])
      else mapGet h k := by
  unfold Header.Add
  rw [mapGet_mapSet]
  by_cases hk : CanonicalMIMEHeaderKey key = k
  · simp [hk]
  · simp [hk]

theorem get_Del (h : Header) (key k : String) :
    mapGet (Header.Del h key) k =
      if k = CanonicalMIMEHeaderKey key then none else mapGet h k := by
  unfold Header.Del
  exact mapGet_mapDel h _ k

theorem canon_swp :
    CanonicalMIMEHeaderKey "Sec-Websocket-Protocol" = "Sec-Websocket-Protocol" := by decide

theorem canon_origin : CanonicalMIMEHeaderKey "Origin" = "Origin" := by decide

theorem canon_authorization : CanonicalMIMEHeaderKey "Authorization" = "Authorization" := by
  decide

theorem canon_csrf : CanonicalMIMEHeaderKey "X-CSRFToken" = "X-Csrftoken" := by decide

/-- Effect of lines 183-185 on a lookup. -/
theorem get_delWebsocketHeaders (h : Header) (k : String) :
    mapGet (websocketHeaders.foldl Header.Del h) k =
      if k ∈ websocketHeaders then none else mapGet h k := by
  have c1 : CanonicalMIMEHeaderKey "Connection" = "Connection" := by decide
  have c2 : CanonicalMIMEHeaderKey "Sec-Websocket-Extensions" = "Sec-Websocket-Extensions" := by
    decide
  have c3 : CanonicalMIMEHeaderKey "Sec-Websocket-Key" = "Sec-Websocket-Key" := by decide
  have c4 : CanonicalMIMEHeaderKey "Sec-Websocket-Version" = "Sec-Websocket-Version" := by
    decide
  have c5 : CanonicalMIMEHeaderKey "Upgrade" = "Upgrade" := by decide
  simp only [websocketHeaders, List.foldl, get_Del, c1, c2, c3, c4, c5, List.mem_cons,
    List.mem_singleton, List.not_mem_nil, or_false]
  by_cases h1 : k = "Connection" <;> by_cases h2 : k = "Sec-Websocket-Extensions" <;>
    by_cases h3 : k = "Sec-Websocket-Key" <;> by_cases h4 : k = "Sec-Websocket-Version" <;>
    by_cases h5 : k = "Upgrade" <;> simp [h1, h2, h3, h4, h5]

/-- Effect of lines 110-112 on a lookup. -/
theorem get_stripBlacklist (h : Header) (k : String) :
    mapGet (stripBlacklist h) k = if k = "X-Csrftoken" then none else mapGet h k := by
  simp only [stripBlacklist, headerBlacklistCloud, List.foldl, get_Del, canon_csrf]

theorem keys_stripBlacklist_subset (h : Header) : ∀ a ∈ keys (stripBlacklist h), a ∈ keys h := by
  intro a ha
  simp only [stripBlacklist, headerBlacklistCloud, List.foldl, Header.Del] at ha
  exact keys_mapDel_subset h _ a ha

theorem canonicalKeys_stripBlacklist (h : Header) (hc : canonicalKeys h) :
    canonicalKeys (stripBlacklist h) :=
  fun k hk => hc k (keys_stripBlacklist_subset h k hk)

/-! ## The header loop -/

theorem splitChars_ne_nil (sep : Char) (s : List Char) : splitChars sep s ≠ [] := by
  cases s with
  | nil => simp [splitChars]
  | cons c cs =>
    unfold splitChars
    split
    · simp
    · split <;> simp

theorem offered_ne_nil (value : List String) (hv : value ≠ []) : offered value ≠ [] := by
  cases value with
  | nil => exact absurd rfl hv
  | cons v vs =>
    simp only [offered, List.flatMap_cons, Split, ne_eq, List.append_eq_nil, List.map_eq_nil_iff,
      not_and]
    intro h0
    exact absurd h0 (splitChars_ne_nil _ _)

/-- The two inner loops are one loop over the offered subprotocols. -/
theorem protocolLoop_eq (acc : Header × String) (value : List String) :
    protocolLoop acc value =
      (offered value).foldl
        (fun acc p => (Header.Set acc.1 "Sec-Websocket-Protocol" p, p)) acc := by
  unfold protocolLoop offered
  induction value generalizing acc with
  | nil => rfl
  | cons v vs ih =>
    simp only [List.foldl_cons, List.flatMap_cons, List.foldl_append, List.foldl_map]
    rw [ih]

theorem setLoop_snd (ps : List String) (acc : Header × String) :
    (ps.foldl (fun acc p => (Header.Set acc.1 "Sec-Websocket-Protocol" p, p)) acc).2 =
      ps.getLast?.getD acc.2 := by
  induction ps using List.reverseRecOn with
  | nil => rfl
  | append_singleton l a _ => simp [List.foldl_append]

theorem setLoop_get (ps : List String) (acc : Header × String) (k : String) :
    mapGet (ps.foldl (fun acc p => (Header.Set acc.1 "Sec-Websocket-Protocol" p, p)) acc).1 k =
      if k = "Sec-Websocket-Protocol" then
        (match ps.getLast? with
          | some p => some [p]
          | none => mapGet acc.1 k)
      else mapGet acc.1 k := by
  induction ps using List.reverseRecOn with
  | nil => simp
  | append_singleton l a ih =>
    simp only [List.foldl_append, List.foldl_cons, List.foldl_nil, get_Set, canon_swp,
      List.getLast?_append, List.getLast?_singleton, Option.or_some]
    rw [ih]
    by_cases hk : k = "Sec-Websocket-Protocol"
    · simp [hk]
    · have : ¬ "Sec-Websocket-Protocol" = k := fun e => hk e.symm
      simp [hk, this]

/-- A lookup in the state after the loop over `l`, at a key other than
`Sec-Websocket-Protocol`. -/
theorem copyLoop_get (rHeader l : Header) (acc : Header × String) (k : String)
    (hk : k ≠ "Sec-Websocket-Protocol") (hc : canonicalKeys l) :
    mapGet (l.foldl (copyStep rHeader) acc).1 k =
      if k ∈ keys l then some [Header.Get rHeader k] else mapGet acc.1 k := by
  induction l generalizing acc with
  | nil => simp [keys]
  | cons kv rest ih =>
    have hrest : canonicalKeys rest := fun a ha => hc a (by simp [keys] at ha ⊢; exact Or.inr ha)
    have hkv : CanonicalMIMEHeaderKey kv.1 = kv.1 := hc kv.1 (by simp [keys])
    rw [List.foldl_cons, ih _ hrest]
    by_cases hmem : k ∈ keys rest
    · have : k ∈ keys (kv :: rest) := by simp [keys] at hmem ⊢; exact Or.inr hmem
      simp [hmem, this]
    · simp only [hmem, if_false]
      unfold copyStep
      by_cases hs : kv.1 = "Sec-Websocket-Protocol"
      · have hne : ¬ k = kv.1 := by rw [hs]; exact hk
        have hmem2 : k ∉ keys (kv :: rest) := by
          simp [keys] at hmem ⊢
          exact ⟨hne, hmem⟩
        simp only [hs, ne_eq, not_true_eq_false, if_false, hmem2]
        rw [protocolLoop_eq, setLoop_get]
        simp [hk]
      · simp only [ne_eq, hs, not_false_eq_true, if_true, get_Set, hkv]
        by_cases he : kv.1 = k
        · have : k ∈ keys (kv :: rest) := by simp [keys, he]
          simp [he, this]
        · have hmem2 : k ∉ keys (kv :: rest) := by
            simp [keys] at hmem ⊢
            exact ⟨fun e => he e.symm, hmem⟩
          simp [he, hmem2]

/-- When no entry of `l` is the `Sec-Websocket-Protocol` entry, the loop leaves
that key and the selected subprotocol as they were. -/
theorem copyLoop_swp_absent (rHeader l : Header) (acc : Header × String)
    (hc : canonicalKeys l) (habs : "Sec-Websocket-Protocol" ∉ keys l) :
    mapGet (l.foldl (copyStep rHeader) acc).1 "Sec-Websocket-Protocol" =
        mapGet acc.1 "Sec-Websocket-Protocol" ∧
      (l.foldl (copyStep rHeader) acc).2 = acc.2 := by
  induction l generalizing acc with
  | nil => simp
  | cons kv rest ih =>
    have hrest : canonicalKeys rest := fun a ha => hc a (by simp [keys] at ha ⊢; exact Or.inr ha)
    have hkv : CanonicalMIMEHeaderKey kv.1 = kv.1 := hc kv.1 (by simp [keys])
    have hne : kv.1 ≠ "Sec-Websocket-Protocol" := by
      intro e
      apply habs
      simp [keys, e]
    have habs2 : "Sec-Websocket-Protocol" ∉ keys rest := by
      intro hm
      apply habs
      simp [keys] at hm ⊢
      exact Or.inr hm
    rw [List.foldl_cons]
    obtain ⟨h1, h2⟩ := ih (copyStep rHeader acc kv) hrest habs2
    rw [h1, h2]
    unfold copyStep
    simp [hne, get_Set, hkv]

/-- The `Sec-Websocket-Protocol` key and the selected subprotocol after the loop
over a map `l` that holds that entry. -/
theorem copyLoop_swp_present (rHeader l : Header) (acc : Header × String) (vs : List String)
    (hc : canonicalKeys l) (hnd : (keys l).Nodup)
    (hget : mapGet l "Sec-Websocket-Protocol" = some vs) :
    mapGet (l.foldl (copyStep rHeader) acc).1 "Sec-Websocket-Protocol" =
        (match (offered vs).getLast? with
          | some p => some [p]
          | none => mapGet acc.1 "Sec-Websocket-Protocol") ∧
      (l.foldl (copyStep rHeader) acc).2 = (offered vs).getLast?.getD acc.2 := by
  induction l generalizing acc with
  | nil => simp [mapGet] at hget
  | cons kv rest ih =>
    have hrest : canonicalKeys rest := fun a ha => hc a (by simp [keys] at ha ⊢; exact Or.inr ha)
    have hkv : CanonicalMIMEHeaderKey kv.1 = kv.1 := hc kv.1 (by simp [keys])
    have hnd2 : kv.1 ∉ keys rest ∧ (keys rest).Nodup := by
      simpa [keys] using hnd
    rw [List.foldl_cons]
    by_cases hs : kv.1 = "Sec-Websocket-Protocol"
    · have hvs : kv.2 = vs := by
        obtain ⟨a, v⟩ := kv
        simp only at hs
        simpa [mapGet, hs] using hget
      have habs : "Sec-Websocket-Protocol" ∉ keys rest := hs ▸ hnd2.1
      obtain ⟨h1, h2⟩ := copyLoop_swp_absent rHeader rest (copyStep rHeader acc kv) hrest habs
      rw [h1, h2]
      unfold copyStep
      simp only [hs, ne_eq, not_true_eq_false, if_false, hvs]
      rw [protocolLoop_eq, setLoop_get, setLoop_snd]
      simp
    · have hget2 : mapGet rest "Sec-Websocket-Protocol" = some vs := by
        obtain ⟨a, v⟩ := kv
        simp only at hs
        simpa [mapGet, hs] using hget
      obtain ⟨h1, h2⟩ := ih (copyStep rHeader acc kv) hrest hnd2.2 hget2
      rw [h1, h2]
      unfold copyStep
      simp [hs, get_Set, hkv]

/-! ## The dial header -/

theorem get_addToken (h : Header) (query : List (String × String)) (k : String) :
    mapGet (addToken h query) k =
      if k = "Authorization" ∧ firstValue (queryValues query "token") ≠ "" then
        some ((mapGet h k).getD [] ++ ["Bearer " ++ firstValue (queryValues query "token")])
      else mapGet h k := by
  unfold addToken
  cases hq : queryValues query "token" with
  | nil => simp [firstValue]
  | cons t0 ts =>
    have hlen : t0.length > 0 ↔ t0 ≠ "" := by
      rw [gt_iff_lt, String.length, List.length_pos, ne_eq, ne_eq, String.ext_iff]
    simp only [firstValue, List.head?_cons, Option.getD_some]
    by_cases ht : t0 = ""
    · have : ¬ t0.length > 0 := fun hl => hlen.1 hl ht
      simp [ht]
    · have hl : t0.length > 0 := hlen.2 ht
      simp only [hl, if_true, get_Add, canon_authorization, ne_eq, ht, not_false_eq_true,
        and_true]
      by_cases hk : k = "Authorization"
      · simp [hk]
      · have : ¬ "Authorization" = k := fun e => hk e.symm
        simp [hk, this]

theorem proxied_get_other (rHeader : Header) (query : List (String × String)) (k : String)
    (h1 : k ≠ "Origin") (h2 : k ≠ "Authorization") :
    mapGet (proxiedHeaderOf rHeader query).1 k =
      if k ∈ websocketHeaders then none else mapGet (copyHeaders rHeader).1 k := by
  have h1s : ¬ "Origin" = k := fun e => h1 e.symm
  simp [proxiedHeaderOf, get_addToken, h2, get_Add, canon_origin, h1s,
    get_delWebsocketHeaders]

theorem proxied_get_origin (rHeader : Header) (query : List (String × String)) :
    mapGet (proxiedHeaderOf rHeader query).1 "Origin" =
      some ((mapGet (copyHeaders rHeader).1 "Origin").getD [] ++ ["http://localhost"]) := by
  simp only [proxiedHeaderOf, get_addToken, get_Add, canon_origin, get_delWebsocketHeaders]
  simp [websocketHeaders]

theorem proxied_get_authorization (rHeader : Header) (query : List (String × String)) :
    mapGet (proxiedHeaderOf rHeader query).1 "Authorization" =
      if firstValue (queryValues query "token") ≠ "" then
        some ((mapGet (copyHeaders rHeader).1 "Authorization").getD [] ++
          ["Bearer " ++ firstValue (queryValues query "token")])
      else mapGet (copyHeaders rHeader).1 "Authorization" := by
  simp only [proxiedHeaderOf, get_addToken, get_Add, canon_origin, get_delWebsocketHeaders]
  simp [websocketHeaders]

theorem not_mem_keys_mapDel (h : Header) (k : String) : k ∉ keys (mapDel h k) := by
  rw [← mapGet_eq_none_iff, mapGet_mapDel]
  simp

theorem nodup_keys_mapDel (h : Header) (k : String) (hnd : (keys h).Nodup) :
    (keys (mapDel h k)).Nodup :=
  hnd.sublist ((List.filter_sublist h).map Prod.fst)

theorem nodup_keys_mapSet (h : Header) (k : String) (v : List String) (hnd : (keys h).Nodup) :
    (keys (mapSet h k v)).Nodup := by
  unfold mapSet
  simp only [keys, List.map_cons]
  exact List.nodup_cons.2 ⟨not_mem_keys_mapDel h k, nodup_keys_mapDel h k hnd⟩

theorem nodup_keys_foldl {α : Type} (f : Header × String → α → Header × String)
    (hf : ∀ acc a, (keys acc.1).Nodup → (keys (f acc a).1).Nodup) (l : List α)
    (acc : Header × String) (h0 : (keys acc.1).Nodup) : (keys (l.foldl f acc).1).Nodup := by
  induction l generalizing acc with
  | nil => exact h0
  | cons a rest ih => exact ih (f acc a) (hf acc a h0)

theorem nodup_keys_copyStep (rHeader : Header) (acc : Header × String)
    (kv : String × List String) (h0 : (keys acc.1).Nodup) :
    (keys (copyStep rHeader acc kv).1).Nodup := by
  unfold copyStep
  split
  · exact nodup_keys_mapSet _ _ _ h0
  · rw [protocolLoop_eq]
    exact nodup_keys_foldl _ (fun a _ ha => nodup_keys_mapSet _ _ _ ha) _ _ h0

/-- The dial header set is a map: no name occurs twice in it. -/
theorem nodup_keys_proxied (rHeader : Header) (query : List (String × String)) :
    (keys (proxiedHeaderOf rHeader query).1).Nodup := by
  have hcopy : (keys (copyHeaders rHeader).1).Nodup :=
    nodup_keys_foldl _ (nodup_keys_copyStep rHeader) _ _ (by simp [keys])
  have hfilt : (keys (websocketHeaders.foldl Header.Del (copyHeaders rHeader).1)).Nodup := by
    simp only [websocketHeaders, List.foldl, Header.Del]
    exact nodup_keys_mapDel _ _ (nodup_keys_mapDel _ _ (nodup_keys_mapDel _ _
      (nodup_keys_mapDel _ _ (nodup_keys_mapDel _ _ hcopy))))
  have horigin : (keys (Header.Add (websocketHeaders.foldl Header.Del (copyHeaders rHeader).1)
      "Origin" "http://localhost")).Nodup := nodup_keys_mapSet _ _ _ hfilt
  unfold proxiedHeaderOf addToken
  simp only
  split
  · exact horigin
  · split
    · exact nodup_keys_mapSet _ _ _ horigin
    · exact horigin

/-- What the loop of lines 132-172 leaves under a key other than
`Sec-Websocket-Protocol`, in terms of the inbound request. -/
theorem copied_get (h : Header) (hc : canonicalKeys h) (k : String)
    (hk : k ≠ "Sec-Websocket-Protocol") :
    mapGet (copyHeaders (stripBlacklist h)).1 k =
      if k = "X-Csrftoken" then none
      else (mapGet h k).map fun vs => [firstValue vs] := by
  unfold copyHeaders
  rw [copyLoop_get _ _ _ _ hk (canonicalKeys_stripBlacklist h hc)]
  by_cases hx : k = "X-Csrftoken"
  · have : k ∉ keys (stripBlacklist h) := by
      rw [← mapGet_eq_none_iff, get_stripBlacklist]
      simp [hx]
    simp only [this, if_false, mapGet]
    simp [hx]
  · cases hg : mapGet h k with
    | none =>
      have : k ∉ keys (stripBlacklist h) := by
        rw [← mapGet_eq_none_iff, get_stripBlacklist]
        simp [hx, hg]
      simp [this, hx, mapGet]
    | some vs =>
      have hmem : k ∈ keys (stripBlacklist h) := by
        rw [mem_keys_iff, get_stripBlacklist]
        exact ⟨vs, by simp [hx, hg]⟩
      have hck : CanonicalMIMEHeaderKey k = k := hc k ((mem_keys_iff h k).2 ⟨vs, hg⟩)
      simp only [hmem, if_true, hx, if_false, Option.map_some', Header.Get, hck,
        get_stripBlacklist, hg]
      cases vs <;> simp [firstValue]

theorem stripBlacklist_origin (h : Header) :
    mapGet (stripBlacklist h) "Origin" = mapGet h "Origin" := by
  rw [get_stripBlacklist]
  simp

theorem checkOrigin_stripBlacklist (env : Env) (configOrigin : String) (h : Header) :
    CheckOrigin env configOrigin (stripBlacklist h) = CheckOrigin env configOrigin h := by
  unfold CheckOrigin
  rw [stripBlacklist_origin]

/-- On an upgrade request the run starts with the backend dial, and the only
upgrader it builds is given the selected subprotocol. -/
theorem serve_upgrade (env : Env) (cfg : ConfigCloud) (w : World) (r : Request)
    (hw : isWebsocket env r.Header = true) :
    ∃ rest, ServeHTTPCloud env cfg w r =
        Event.dial (proxiedHeaderOf (stripBlacklist r.Header) r.Query).1 :: rest ∧
      ∀ subs, Event.upgrade subs ∈ rest →
        subs = [(proxiedHeaderOf (stripBlacklist r.Header) r.Query).2] := by
  unfold ServeHTTPCloud
  simp only [hw, Bool.not_true, Bool.false_eq_true, if_false]
  cases w.dial with
  | failed resp => exact ⟨_, rfl, by simp⟩
  | ok =>
    refine ⟨_, rfl, ?_⟩
    intro subs hs
    cases hU : Upgrade w (CheckOrigin env cfg.Origin (stripBlacklist r.Header)) <;>
      simp [hU] at hs <;> exact hs

/-! ## The relay loop -/

theorem firstReadError_of_getLast (src : List ReadResult) (e : String)
    (hend : src.getLast? = some (ReadResult.err e)) : ∃ e1, firstReadError src = some e1 := by
  induction src with
  | nil => simp at hend
  | cons res rest ih =>
    cases res with
    | err e0 => exact ⟨e0, rfl⟩
    | msg m =>
      cases rest with
      | nil => simp at hend
      | cons r2 rest2 =>
        have : (r2 :: rest2).getLast? = some (ReadResult.err e) := by
          simpa [List.getLast?_cons_cons] using hend
        simpa [firstReadError] using ih this

theorem copy_steps (writeMutex : Bool) (m : Message) (err : Option String) (tl : List IOEvent) :
    writesOf ((if writeMutex then
          [IOEvent.read (ReadResult.msg m), IOEvent.lock, IOEvent.write m err, IOEvent.unlock]
        else [IOEvent.read (ReadResult.msg m), IOEvent.write m err]) ++ tl) = m :: writesOf tl ∧
      readsOf ((if writeMutex then
          [IOEvent.read (ReadResult.msg m), IOEvent.lock, IOEvent.write m err, IOEvent.unlock]
        else [IOEvent.read (ReadResult.msg m), IOEvent.write m err]) ++ tl) =
        ReadResult.msg m :: readsOf tl ∧
      ioOps ((if writeMutex then
          [IOEvent.read (ReadResult.msg m), IOEvent.lock, IOEvent.write m err, IOEvent.unlock]
        else [IOEvent.read (ReadResult.msg m), IOEvent.write m err]) ++ tl) =
        IOEvent.read (ReadResult.msg m) :: IOEvent.write m err :: ioOps tl ∧
      deliveredOf ((if writeMutex then
          [IOEvent.read (ReadResult.msg m), IOEvent.lock, IOEvent.write m err, IOEvent.unlock]
        else [IOEvent.read (ReadResult.msg m), IOEvent.write m err]) ++ tl) =
        (if err = none then m :: deliveredOf tl else deliveredOf tl) := by
  cases writeMutex <;> cases err <;> simp [writesOf, readsOf, ioOps, deliveredOf]

theorem getLast?_cons_of_some {α : Type} {l : List α} {x a : α} (h : l.getLast? = some x) :
    (a :: l).getLast? = some x := by
  cases l with
  | nil => simp at h
  | cons b bs =>
    rw [List.getLast?_cons_cons]
    exact h

/-- The run of the loop when no write fails before the first failing read. -/
theorem copy_read_failure (writeMutex : Bool) (dest : Nat → Message → Option String)
    (src : List ReadResult) (n : Nat) (e : String) (hread : firstReadError src = some e)
    (hw : firstWriteFailure dest n (readBeforeError src) = none) :
    (copyMsgsCloudFrom writeMutex dest n src).ret = some e ∧
      writesOf (copyMsgsCloudFrom writeMutex dest n src).trace = readBeforeError src ∧
      deliveredOf (copyMsgsCloudFrom writeMutex dest n src).trace = readBeforeError src ∧
      readsOf (copyMsgsCloudFrom writeMutex dest n src).trace =
        src.take ((readBeforeError src).length + 1) ∧
      (ioOps (copyMsgsCloudFrom writeMutex dest n src).trace).getLast? =
        some (IOEvent.read (ReadResult.err e)) := by
  induction src generalizing n with
  | nil => simp [firstReadError] at hread
  | cons res rest ih =>
    cases res with
    | err e0 =>
      simp only [firstReadError, Option.some.injEq] at hread
      subst hread
      simp [copyMsgsCloudFrom, writesOf, deliveredOf, readsOf, ioOps, readBeforeError]
    | msg m =>
      simp only [firstReadError] at hread
      simp only [readBeforeError, firstWriteFailure] at hw
      cases hd : dest n m with
      | some we => simp [hd] at hw
      | none =>
        simp only [hd, Option.map_eq_none'] at hw
        obtain ⟨h1, h2, h3, h4, h5⟩ := ih (n + 1) hread hw
        obtain ⟨s1, s2, s3, s4⟩ :=
          copy_steps writeMutex m none (copyMsgsCloudFrom writeMutex dest (n + 1) rest).trace
        simp only [copyMsgsCloudFrom, hd, readBeforeError, List.length_cons, List.take_succ_cons]
        refine ⟨h1, ?_, ?_, ?_, ?_⟩
        · rw [s1, h2]
        · rw [s4, h3]; simp
        · rw [s2, h4]
        · rw [s3]
          exact getLast?_cons_of_some (getLast?_cons_of_some h5)

/-- The run of the loop when write number `k` is the first to fail. -/
theorem copy_write_failure (writeMutex : Bool) (dest : Nat → Message → Option String)
    (src : List ReadResult) (n k : Nat) (we : String)
    (hw : firstWriteFailure dest n (readBeforeError src) = some (k, we)) :
    (copyMsgsCloudFrom writeMutex dest n src).ret = some we ∧
      writesOf (copyMsgsCloudFrom writeMutex dest n src).trace =
        (readBeforeError src).take (k + 1) ∧
      deliveredOf (copyMsgsCloudFrom writeMutex dest n src).trace =
        (readBeforeError src).take k ∧
      readsOf (copyMsgsCloudFrom writeMutex dest n src).trace = src.take (k + 1) ∧
      ∃ m, (readBeforeError src).get? k = some m ∧ dest (n + k) m = some we ∧
        (ioOps (copyMsgsCloudFrom writeMutex dest n src).trace).getLast? =
          some (IOEvent.write m (some we)) := by
  induction src generalizing n k with
  | nil => simp [readBeforeError, firstWriteFailure] at hw
  | cons res rest ih =>
    cases res with
    | err e0 => simp [readBeforeError, firstWriteFailure] at hw
    | msg m =>
      simp only [readBeforeError, firstWriteFailure] at hw
      cases hd : dest n m with
      | some e1 =>
        simp only [hd, Option.some.injEq, Prod.mk.injEq] at hw
        obtain ⟨hk, he⟩ := hw
        subst hk
        subst he
        obtain ⟨s1, s2, s3, s4⟩ := copy_steps writeMutex m (some e1) []
        simp only [List.append_nil] at s1 s2 s3 s4
        simp only [copyMsgsCloudFrom, hd, readBeforeError]
        refine ⟨trivial, ?_, ?_, ?_, m, ?_, ?_, ?_⟩
        · rw [s1]; simp [writesOf]
        · rw [s4]; simp [deliveredOf]
        · rw [s2]; simp [readsOf]
        · simp
        · simpa using hd
        · rw [s3]; simp [ioOps]
      | none =>
        simp only [hd, Option.map_eq_some', Prod.mk.injEq, Prod.exists] at hw
        obtain ⟨k1, we1, hw1, hk1, hwe1⟩ := hw
        subst hk1
        subst hwe1
        obtain ⟨h1, h2, h3, h4, m1, h5, h6, h7⟩ := ih (n + 1) k1 hw1
        obtain ⟨s1, s2, s3, s4⟩ :=
          copy_steps writeMutex m none (copyMsgsCloudFrom writeMutex dest (n + 1) rest).trace
        simp only [copyMsgsCloudFrom, hd, readBeforeError, List.take_succ_cons]
        refine ⟨h1, ?_, ?_, ?_, m1, ?_, ?_, ?_⟩
        · rw [s1, h2]
        · rw [s4, h3]; simp
        · rw [s2, h4]
        · simpa using h5
        · rw [← h6]; congr 1; omega
        · rw [s3]
          exact getLast?_cons_of_some (getLast?_cons_of_some h7)

/-! ## Facts about one run of the handler -/

theorem nodup_keys_stripBlacklist (h : Header) (hnd : (keys h).Nodup) :
    (keys (stripBlacklist h)).Nodup := by
  simp only [stripBlacklist, headerBlacklistCloud, List.foldl, Header.Del, mapDel, keys]
  exact hnd.sublist ((List.filter_sublist h).map Prod.fst)

/-- The header sets a run hands on are those the model computes. -/
theorem serve_headers (env : Env) (cfg : ConfigCloud) (w : World) (r : Request) (h : Header) :
    (Event.passthrough h ∈ ServeHTTPCloud env cfg w r → h = stripBlacklist r.Header) ∧
      (Event.dial h ∈ ServeHTTPCloud env cfg w r →
        h = (proxiedHeaderOf (stripBlacklist r.Header) r.Query).1) := by
  unfold ServeHTTPCloud
  cases isWebsocket env r.Header
  · simp
  · simp only [Bool.not_true, Bool.false_eq_true, if_false]
    cases w.dial with
    | failed resp => simp
    | ok =>
      cases Upgrade w (CheckOrigin env cfg.Origin (stripBlacklist r.Header)) <;> simp

theorem serve_starts (env : Env) (cfg : ConfigCloud) (w : World) (r : Request) :
    ∃ h rest, ServeHTTPCloud env cfg w r = Event.passthrough h :: rest ∨
      ServeHTTPCloud env cfg w r = Event.dial h :: rest := by
  unfold ServeHTTPCloud
  cases isWebsocket env r.Header
  · exact ⟨_, [], Or.inl rfl⟩
  · simp only [Bool.not_true, Bool.false_eq_true, if_false]
    cases w.dial with
    | failed resp => exact ⟨_, _, Or.inr rfl⟩
    | ok => exact ⟨_, _, Or.inr rfl⟩

/-- Every name of the dial header set is one of the three names the handler
sets itself or a name of the inbound request that is neither blacklisted nor a
connection-management header. -/
theorem dial_keys (h : Header) (hc : canonicalKeys h) (query : List (String × String))
    (k : String) (hk : k ∈ keys (proxiedHeaderOf (stripBlacklist h) query).1) :
    k = "Sec-Websocket-Protocol" ∨ k = "Origin" ∨ k = "Authorization" ∨
      (k ∈ keys h ∧ k ≠ "X-Csrftoken" ∧ k ∉ websocketHeaders) := by
  by_cases h0 : k = "Sec-Websocket-Protocol"
  · exact Or.inl h0
  by_cases h1 : k = "Origin"
  · exact Or.inr (Or.inl h1)
  by_cases h2 : k = "Authorization"
  · exact Or.inr (Or.inr (Or.inl h2))
  refine Or.inr (Or.inr (Or.inr ?_))
  rw [mem_keys_iff] at hk
  obtain ⟨vs, hvs⟩ := hk
  rw [proxied_get_other _ _ _ h1 h2] at hvs
  by_cases hwsh : k ∈ websocketHeaders
  · simp [hwsh] at hvs
  · simp only [hwsh, if_false] at hvs
    rw [copied_get h hc k h0] at hvs
    by_cases hx : k = "X-Csrftoken"
    · simp [hx] at hvs
    · simp only [hx, if_false, Option.map_eq_some'] at hvs
      obtain ⟨vs0, hvs0, _⟩ := hvs
      exact ⟨(mem_keys_iff h k).2 ⟨vs0, hvs0⟩, hx, hwsh⟩

/-! ## The claims -/

/-- C1 (defect in the code).  Configured origin `https://hostA`, request origin
`https://hostB`: both parse, the hosts `hostA` and `hostB` differ, and the check
accepts the request, because `net.SplitHostPort` fails on a host without a port
and returns the empty host for both. -/
theorem C1_portless_hosts_accepted :
    urlParse "https://hostA" = some ⟨"https", "hostA"⟩ ∧
      urlParse "https://hostB" = some ⟨"https", "hostB"⟩ ∧
      (SplitHostPort "hostA").1 = "" ∧ (SplitHostPort "hostB").1 = "" ∧
      CheckOrigin goEnv "https://hostA" [("Origin", ["https://hostB"])] = some true := by
  decide

/-- C2 (defect in the code).  Configured origin `https://192.168.8.27`, request
origin `https://192.168.8.27:31303`: the same hostname, the request carries a
port and the configured origin does not, and the check rejects the request:
`net.SplitHostPort` gives the empty host for the configured origin and
`192.168.8.27` for the request.  With a port on both sides the check accepts. -/
theorem C2_same_host_rejected :
    urlParse "https://192.168.8.27" = some ⟨"https", "192.168.8.27"⟩ ∧
      urlParse "https://192.168.8.27:31303" = some ⟨"https", "192.168.8.27:31303"⟩ ∧
      (SplitHostPort "192.168.8.27").1 = "" ∧
      (SplitHostPort "192.168.8.27:31303").1 = "192.168.8.27" ∧
      CheckOrigin goEnv "https://192.168.8.27"
        [("Origin", ["https://192.168.8.27:31303"])] = some false ∧
      CheckOrigin goEnv "https://host:8443" [("Origin", ["https://host:9999"])] = some true := by
  decide

/-- C3 (counterexample).  With `Cookie` in the configured blacklist, a plain
request hands the `Cookie` header to the passthrough and an upgrade request
dials the backend with it. -/
theorem C3_configured_blacklist_ignored :
    "Cookie" ∈ (ConfigCloud.mk ["Cookie"] ⟨"https", "k8s:6443"⟩ "").HeaderBlacklist ∧
      ServeHTTPCloud goEnv ⟨["Cookie"], ⟨"https", "k8s:6443"⟩, ""⟩ ⟨DialResult.ok, true, true⟩
          ⟨[("Cookie", ["sid=1"])], []⟩ =
        [Event.passthrough [("Cookie", ["sid=1"])]] ∧
      ServeHTTPCloud goEnv ⟨["Cookie"], ⟨"https", "k8s:6443"⟩, ""⟩
          ⟨DialResult.failed none, true, true⟩
          ⟨[("Cookie", ["sid=1"]), ("Upgrade", ["websocket"])], []⟩ =
        [Event.dial [("Origin", ["http://localhost"]), ("Cookie", ["sid=1"])],
          Event.httpError 502] := by
  decide

/-- C3 (amended).  For every request whose header names are canonical and every
configuration, the run hands a header set to the passthrough or to the backend
dial, and no name of such a header set is, up to canonical form, a name of the
built-in list `headerBlacklistCloud` (the CSRF-token header). -/
theorem C3_builtin_blacklist_removed (env : Env) (cfg : ConfigCloud) (w : World) (r : Request)
    (hc : canonicalKeys r.Header) :
    (∃ h rest, ServeHTTPCloud env cfg w r = Event.passthrough h :: rest ∨
        ServeHTTPCloud env cfg w r = Event.dial h :: rest) ∧
      ∀ h, (Event.passthrough h ∈ ServeHTTPCloud env cfg w r ∨
          Event.dial h ∈ ServeHTTPCloud env cfg w r) →
        ∀ name ∈ headerBlacklistCloud, ∀ k ∈ keys h,
          CanonicalMIMEHeaderKey k ≠ CanonicalMIMEHeaderKey name := by
  refine ⟨serve_starts env cfg w r, ?_⟩
  intro h hev name hname k hk
  have hn : name = "X-CSRFToken" := by simpa [headerBlacklistCloud] using hname
  subst hn
  rw [canon_csrf]
  obtain ⟨hp, hd⟩ := serve_headers env cfg w r h
  rcases hev with hev | hev
  · have hh := hp hev
    subst hh
    have hck : CanonicalMIMEHeaderKey k = k := hc k (keys_stripBlacklist_subset r.Header k hk)
    rw [hck]
    intro hx
    rw [mem_keys_iff, get_stripBlacklist] at hk
    obtain ⟨vs, hvs⟩ := hk
    simp [hx] at hvs
  · have hh := hd hev
    subst hh
    rcases dial_keys r.Header hc r.Query k hk with h0 | h0 | h0 | ⟨hin, hx, _⟩
    · rw [h0]; decide
    · rw [h0]; decide
    · rw [h0]; decide
    · rw [hc k hin]
      exact hx

/-- C3 (witness). -/
theorem C3_builtin_blacklist_removed_witness :
    canonicalKeys [("X-Csrftoken", ["t0k"]), ("Accept", ["text/html"])] ∧
      ((∃ h rest, ServeHTTPCloud goEnv ⟨[], ⟨"https", "k8s:6443"⟩, ""⟩ ⟨DialResult.ok, true, true⟩
            ⟨[("X-Csrftoken", ["t0k"]), ("Accept", ["text/html"])], []⟩ = Event.passthrough h :: rest ∨
          ServeHTTPCloud goEnv ⟨[], ⟨"https", "k8s:6443"⟩, ""⟩ ⟨DialResult.ok, true, true⟩
            ⟨[("X-Csrftoken", ["t0k"]), ("Accept", ["text/html"])], []⟩ = Event.dial h :: rest) ∧
        ∀ h, (Event.passthrough h ∈ ServeHTTPCloud goEnv ⟨[], ⟨"https", "k8s:6443"⟩, ""⟩
              ⟨DialResult.ok, true, true⟩
              ⟨[("X-Csrftoken", ["t0k"]), ("Accept", ["text/html"])], []⟩ ∨
            Event.dial h ∈ ServeHTTPCloud goEnv ⟨[], ⟨"https", "k8s:6443"⟩, ""⟩
              ⟨DialResult.ok, true, true⟩
              ⟨[("X-Csrftoken", ["t0k"]), ("Accept", ["text/html"])], []⟩) →
          ∀ name ∈ headerBlacklistCloud, ∀ k ∈ keys h,
            CanonicalMIMEHeaderKey k ≠ CanonicalMIMEHeaderKey name) :=
  ⟨by decide,
    C3_builtin_blacklist_removed goEnv ⟨[], ⟨"https", "k8s:6443"⟩, ""⟩ ⟨DialResult.ok, true, true⟩
      ⟨[("X-Csrftoken", ["t0k"]), ("Accept", ["text/html"])], []⟩ (by decide)⟩

/-- C4 (counterexample).  An upgrade request that carries its own
`Authorization` header and the query parameter `token=abc123` dials the backend
with two `Authorization` values, not with the single value `Bearer abc123`. -/
theorem C4_authorization_not_single :
    ServeHTTPCloud goEnv ⟨[], ⟨"https", "k8s:6443"⟩, ""⟩ ⟨DialResult.failed none, true, true⟩
        ⟨[("Upgrade", ["websocket"]), ("Authorization", ["Basic dXNlcg"])],
          [("token", "abc123")]⟩ =
      [Event.dial [("Authorization", ["Basic dXNlcg", "Bearer abc123"]),
          ("Origin", ["http://localhost"])],
        Event.httpError 502] := by
  decide

/-- C4 (amended).  On an upgrade request with canonical header names the run
starts with the backend dial.  When the first `token` value `t` of the query is
non-empty, the `Authorization` values of the dial header set are the first
inbound `Authorization` value, if the request has that header, followed by
`Bearer t`; so they are the single value `Bearer t` when the request has no
`Authorization` header.  When there is no `token` value or the first one is
empty, nothing is added: the dial header set has `Authorization` only as copied
from the request. -/
theorem C4_token_injection (env : Env) (cfg : ConfigCloud) (w : World) (r : Request)
    (hw : isWebsocket env r.Header = true) (hc : canonicalKeys r.Header) :
    ∃ h rest, ServeHTTPCloud env cfg w r = Event.dial h :: rest ∧ (keys h).Nodup ∧
      (∀ t, (queryValues r.Query "token").head? = some t → t ≠ "" →
        mapGet h "Authorization" =
            some ((match mapGet r.Header "Authorization" with
              | some vs => [firstValue vs]
              | none => []) ++ ["Bearer " ++ t]) ∧
          (mapGet r.Header "Authorization" = none →
            mapGet h "Authorization" = some ["Bearer " ++ t])) ∧
      (firstValue (queryValues r.Query "token") = "" →
        mapGet h "Authorization" =
          (mapGet r.Header "Authorization").map fun vs => [firstValue vs]) := by
  obtain ⟨rest, hrun, _⟩ := serve_upgrade env cfg w r hw
  refine ⟨_, rest, hrun, nodup_keys_proxied _ _, ?_, ?_⟩
  · intro t ht hne
    have hfv : firstValue (queryValues r.Query "token") = t := by simp [firstValue, ht]
    have hget : mapGet (proxiedHeaderOf (stripBlacklist r.Header) r.Query).1 "Authorization" =
        some ((match mapGet r.Header "Authorization" with
          | some vs => [firstValue vs]
          | none => []) ++ ["Bearer " ++ t]) := by
      rw [proxied_get_authorization, hfv, copied_get r.Header hc _ (by decide)]
      cases mapGet r.Header "Authorization" <;> simp [hne]
    refine ⟨hget, ?_⟩
    intro hnone
    rw [hget, hnone]
    rfl
  · intro hempty
    rw [proxied_get_authorization, hempty, copied_get r.Header hc _ (by decide)]
    simp

/-- C4 (witness). -/
theorem C4_token_injection_witness :
    isWebsocket goEnv [("Upgrade", ["websocket"])] = true ∧
      canonicalKeys [("Upgrade", ["websocket"])] ∧
      ∃ h rest, ServeHTTPCloud goEnv ⟨[], ⟨"https", "k8s:6443"⟩, ""⟩ ⟨DialResult.ok, true, true⟩
          ⟨[("Upgrade", ["websocket"])], [("token", "abc123")]⟩ = Event.dial h :: rest ∧
        (keys h).Nodup ∧
        (∀ t, (queryValues [("token", "abc123")] "token").head? = some t → t ≠ "" →
          mapGet h "Authorization" =
              some ((match mapGet [("Upgrade", ["websocket"])] "Authorization" with
                | some vs => [firstValue vs]
                | none => []) ++ ["Bearer " ++ t]) ∧
            (mapGet [("Upgrade", ["websocket"])] "Authorization" = none →
              mapGet h "Authorization" = some ["Bearer " ++ t])) ∧
        (firstValue (queryValues [("token", "abc123")] "token") = "" →
          mapGet h "Authorization" =
            (mapGet [("Upgrade", ["websocket"])] "Authorization").map fun vs =>
              [firstValue vs]) :=
  ⟨by decide, by decide,
    C4_token_injection goEnv ⟨[], ⟨"https", "k8s:6443"⟩, ""⟩ ⟨DialResult.ok, true, true⟩
      ⟨[("Upgrade", ["websocket"])], [("token", "abc123")]⟩ (by decide) (by decide)⟩

/-- C5.  On an upgrade request (a map with canonical header names) whose
`Sec-Websocket-Protocol` header has a non-empty value list, the dial header set
(a map, no name twice) holds exactly one `Sec-Websocket-Protocol` value, that
value is the last entry of the trimmed offered list, and every upgrader the run
builds is given that value as its only subprotocol; when the dial succeeds such
an upgrader is built. -/
theorem C5_subprotocol_selection (env : Env) (cfg : ConfigCloud) (w : World) (r : Request)
    (vs : List String) (hw : isWebsocket env r.Header = true) (hc : canonicalKeys r.Header)
    (hnd : (keys r.Header).Nodup)
    (hoffer : mapGet r.Header "Sec-Websocket-Protocol" = some vs) (hne : vs ≠ []) :
    ∃ p h rest, ServeHTTPCloud env cfg w r = Event.dial h :: rest ∧
      (keys h).Nodup ∧ mapGet h "Sec-Websocket-Protocol" = some [p] ∧
      (offered vs).getLast? = some p ∧ p ∈ offered vs ∧
      (∀ subs, Event.upgrade subs ∈ rest → subs = [p]) ∧
      (w.dial = DialResult.ok → Event.upgrade [p] ∈ rest) := by
  obtain ⟨rest, hrun, hsubs⟩ := serve_upgrade env cfg w r hw
  have hoffer2 : mapGet (stripBlacklist r.Header) "Sec-Websocket-Protocol" = some vs := by
    rw [get_stripBlacklist]
    simpa using hoffer
  obtain ⟨g1, g2⟩ := copyLoop_swp_present (stripBlacklist r.Header) (stripBlacklist r.Header)
    ([], "") vs (canonicalKeys_stripBlacklist _ hc) (nodup_keys_stripBlacklist _ hnd) hoffer2
  have hlast : ∃ p, (offered vs).getLast? = some p := by
    cases hl : (offered vs).getLast? with
    | none => exact absurd (List.getLast?_eq_none_iff.1 hl) (offered_ne_nil vs hne)
    | some p => exact ⟨p, rfl⟩
  obtain ⟨p, hp⟩ := hlast
  rw [hp] at g1 g2
  have hsub : (proxiedHeaderOf (stripBlacklist r.Header) r.Query).2 = p := by
    simpa [proxiedHeaderOf, copyHeaders] using g2
  refine ⟨p, _, rest, hrun, nodup_keys_proxied _ _, ?_, hp, List.mem_of_getLast?_eq_some hp,
    ?_, ?_⟩
  · rw [proxied_get_other _ _ _ (by decide) (by decide)]
    simpa [websocketHeaders, copyHeaders] using g1
  · intro subs hs
    rw [hsubs subs hs, hsub]
  · intro hdial
    have hrun2 := hrun
    unfold ServeHTTPCloud at hrun2
    simp only [hw, Bool.not_true, Bool.false_eq_true, if_false, hdial, List.cons.injEq,
      true_and] at hrun2
    rw [← hrun2, hsub]
    simp

/-- C5 (witness). -/
theorem C5_subprotocol_selection_witness :
    isWebsocket goEnv [("Upgrade", ["websocket"]), ("Sec-Websocket-Protocol", ["a, b"])] = true ∧
      canonicalKeys [("Upgrade", ["websocket"]), ("Sec-Websocket-Protocol", ["a, b"])] ∧
      (keys [("Upgrade", ["websocket"]), ("Sec-Websocket-Protocol", ["a, b"])]).Nodup ∧
      mapGet [("Upgrade", ["websocket"]), ("Sec-Websocket-Protocol", ["a, b"])]
        "Sec-Websocket-Protocol" = some ["a, b"] ∧
      ["a, b"] ≠ [] ∧
      ∃ p h rest, ServeHTTPCloud goEnv ⟨[], ⟨"https", "k8s:6443"⟩, ""⟩
          ⟨DialResult.ok, true, true⟩
          ⟨[("Upgrade", ["websocket"]), ("Sec-Websocket-Protocol", ["a, b"])], []⟩ =
          Event.dial h :: rest ∧
        (keys h).Nodup ∧ mapGet h "Sec-Websocket-Protocol" = some [p] ∧
        (offered ["a, b"]).getLast? = some p ∧ p ∈ offered ["a, b"] ∧
        (∀ subs, Event.upgrade subs ∈ rest → subs = [p]) ∧
        ((World.mk DialResult.ok true true).dial = DialResult.ok → Event.upgrade [p] ∈ rest) :=
  ⟨by decide, by decide, by decide, by decide, by decide,
    C5_subprotocol_selection goEnv ⟨[], ⟨"https", "k8s:6443"⟩, ""⟩ ⟨DialResult.ok, true, true⟩
      ⟨[("Upgrade", ["websocket"]), ("Sec-Websocket-Protocol", ["a, b"])], []⟩ ["a, b"]
      (by decide) (by decide) (by decide) (by decide) (by decide)⟩

/-- C6 (counterexample).  An upgrade request with the header
`Origin: https://evil.example` dials the backend with two `Origin` values: the
inbound one, then `http://localhost`. -/
theorem C6_origin_not_single :
    ServeHTTPCloud goEnv ⟨[], ⟨"https", "k8s:6443"⟩, ""⟩ ⟨DialResult.failed none, true, true⟩
        ⟨[("Upgrade", ["websocket"]), ("Origin", ["https://evil.example"])], []⟩ =
      [Event.dial [("Origin", ["https://evil.example", "http://localhost"])],
        Event.httpError 502] := by
  decide

/-- C6 (amended).  On an upgrade request with canonical header names the run
starts with the backend dial, and the `Origin` values of the dial header set are
the first inbound `Origin` value, if the request has that header, followed by
`http://localhost`; they are the single value `http://localhost` when the
request has no `Origin` header. -/
theorem C6_origin_appended (env : Env) (cfg : ConfigCloud) (w : World) (r : Request)
    (hw : isWebsocket env r.Header = true) (hc : canonicalKeys r.Header) :
    ∃ h rest, ServeHTTPCloud env cfg w r = Event.dial h :: rest ∧ (keys h).Nodup ∧
      mapGet h "Origin" =
        some ((match mapGet r.Header "Origin" with
          | some vs => [firstValue vs]
          | none => []) ++ ["http://localhost"]) ∧
      (mapGet r.Header "Origin" = none → mapGet h "Origin" = some ["http://localhost"]) := by
  obtain ⟨rest, hrun, _⟩ := serve_upgrade env cfg w r hw
  have hget : mapGet (proxiedHeaderOf (stripBlacklist r.Header) r.Query).1 "Origin" =
      some ((match mapGet r.Header "Origin" with
        | some vs => [firstValue vs]
        | none => []) ++ ["http://localhost"]) := by
    rw [proxied_get_origin, copied_get r.Header hc _ (by decide)]
    cases mapGet r.Header "Origin" <;> simp
  refine ⟨_, rest, hrun, nodup_keys_proxied _ _, hget, ?_⟩
  intro hnone
  rw [hget, hnone]
  rfl

/-- C6 (witness). -/
theorem C6_origin_appended_witness :
    isWebsocket goEnv [("Upgrade", ["websocket"]), ("Origin", ["https://evil.example"])] = true ∧
      canonicalKeys [("Upgrade", ["websocket"]), ("Origin", ["https://evil.example"])] ∧
      ∃ h rest, ServeHTTPCloud goEnv ⟨[], ⟨"https", "k8s:6443"⟩, ""⟩
          ⟨DialResult.ok, true, true⟩
          ⟨[("Upgrade", ["websocket"]), ("Origin", ["https://evil.example"])], []⟩ =
          Event.dial h :: rest ∧
        (keys h).Nodup ∧
        mapGet h "Origin" =
          some ((match mapGet [("Upgrade", ["websocket"]), ("Origin", ["https://evil.example"])]
              "Origin" with
            | some vs => [firstValue vs]
            | none => []) ++ ["http://localhost"]) ∧
        (mapGet [("Upgrade", ["websocket"]), ("Origin", ["https://evil.example"])] "Origin" =
            none → mapGet h "Origin" = some ["http://localhost"]) :=
  ⟨by decide, by decide,
    C6_origin_appended goEnv ⟨[], ⟨"https", "k8s:6443"⟩, ""⟩ ⟨DialResult.ok, true, true⟩
      ⟨[("Upgrade", ["websocket"]), ("Origin", ["https://evil.example"])], []⟩
      (by decide) (by decide)⟩

/-- C7 (counterexample).  An upgrade request with the two-valued header
`X-Foo: 1`, `X-Foo: 2` dials the backend with the single value `1` under
`X-Foo`. -/
theorem C7_only_first_value_copied :
    ServeHTTPCloud goEnv ⟨[], ⟨"https", "k8s:6443"⟩, ""⟩ ⟨DialResult.failed none, true, true⟩
        ⟨[("Upgrade", ["websocket"]), ("X-Foo", ["1", "2"])], []⟩ =
      [Event.dial [("Origin", ["http://localhost"]), ("X-Foo", ["1"])],
        Event.httpError 502] := by
  decide

/-- C7 (amended).  On an upgrade request with canonical header names the run
starts with the backend dial; for every inbound name `k` that is not set aside,
the dial header set holds `k` with one value, the first inbound value of `k`
(the empty string if the inbound list is empty, the same list as inbound when
the request has one value for `k`); and every name of the dial header set is
such an inbound name or one of `Sec-Websocket-Protocol`, `Origin`,
`Authorization`. -/
theorem C7_first_value_copy (env : Env) (cfg : ConfigCloud) (w : World) (r : Request)
    (hw : isWebsocket env r.Header = true) (hc : canonicalKeys r.Header) :
    ∃ h rest, ServeHTTPCloud env cfg w r = Event.dial h :: rest ∧ (keys h).Nodup ∧
      (∀ k vs, mapGet r.Header k = some vs → k ∉ setAsideNames →
        mapGet h k = some [firstValue vs]) ∧
      (∀ k v, mapGet r.Header k = some [v] → k ∉ setAsideNames → mapGet h k = some [v]) ∧
      (∀ k ∈ keys h, k ∈ ["Sec-Websocket-Protocol", "Origin", "Authorization"] ∨
        (k ∈ keys r.Header ∧ k ∉ setAsideNames)) := by
  obtain ⟨rest, hrun, _⟩ := serve_upgrade env cfg w r hw
  have hcopy : ∀ k vs, mapGet r.Header k = some vs → k ∉ setAsideNames →
      mapGet (proxiedHeaderOf (stripBlacklist r.Header) r.Query).1 k = some [firstValue vs] := by
    intro k vs hk hout
    simp only [setAsideNames, List.mem_cons, List.mem_singleton, List.not_mem_nil, or_false,
      not_or] at hout
    obtain ⟨n0, n1, n2, n3, n4, n5, n6, n7, n8⟩ := hout
    rw [proxied_get_other _ _ _ n7 n8, copied_get r.Header hc k n0, hk]
    simp [websocketHeaders, n1, n2, n3, n4, n5, n6]
  refine ⟨_, rest, hrun, nodup_keys_proxied _ _, hcopy, ?_, ?_⟩
  · intro k v hk hout
    simpa [firstValue] using hcopy k [v] hk hout
  · intro k hk
    rcases dial_keys r.Header hc r.Query k hk with h0 | h0 | h0 | ⟨hin, hx, hwsh⟩
    · exact Or.inl (by simp [h0])
    · exact Or.inl (by simp [h0])
    · exact Or.inl (by simp [h0])
    · by_cases hs : k = "Sec-Websocket-Protocol"
      · exact Or.inl (by simp [hs])
      by_cases ho : k = "Origin"
      · exact Or.inl (by simp [ho])
      by_cases ha : k = "Authorization"
      · exact Or.inl (by simp [ha])
      refine Or.inr ⟨hin, ?_⟩
      simp only [websocketHeaders, List.mem_cons, List.mem_singleton, List.not_mem_nil,
        or_false, not_or] at hwsh
      simp only [setAsideNames, List.mem_cons, List.mem_singleton, List.not_mem_nil, or_false,
        not_or]
      exact ⟨hs, hx, hwsh.1, hwsh.2.1, hwsh.2.2.1, hwsh.2.2.2.1, hwsh.2.2.2.2, ho, ha⟩

/-- C7 (witness). -/
theorem C7_first_value_copy_witness :
    isWebsocket goEnv [("Upgrade", ["websocket"]), ("X-Foo", ["1", "2"])] = true ∧
      canonicalKeys [("Upgrade", ["websocket"]), ("X-Foo", ["1", "2"])] ∧
      ∃ h rest, ServeHTTPCloud goEnv ⟨[], ⟨"https", "k8s:6443"⟩, ""⟩
          ⟨DialResult.ok, true, true⟩
          ⟨[("Upgrade", ["websocket"]), ("X-Foo", ["1", "2"])], []⟩ = Event.dial h :: rest ∧
        (keys h).Nodup ∧
        (∀ k vs, mapGet [("Upgrade", ["websocket"]), ("X-Foo", ["1", "2"])] k = some vs →
          k ∉ setAsideNames → mapGet h k = some [firstValue vs]) ∧
        (∀ k v, mapGet [("Upgrade", ["websocket"]), ("X-Foo", ["1", "2"])] k = some [v] →
          k ∉ setAsideNames → mapGet h k = some [v]) ∧
        (∀ k ∈ keys h, k ∈ ["Sec-Websocket-Protocol", "Origin", "Authorization"] ∨
          (k ∈ keys [("Upgrade", ["websocket"]), ("X-Foo", ["1", "2"])] ∧
            k ∉ setAsideNames)) :=
  ⟨by decide, by decide,
    C7_first_value_copy goEnv ⟨[], ⟨"https", "k8s:6443"⟩, ""⟩ ⟨DialResult.ok, true, true⟩
      ⟨[("Upgrade", ["websocket"]), ("X-Foo", ["1", "2"])], []⟩ (by decide) (by decide)⟩

/-- C8.  For every sequence of read results that ends in a read error, with or
without a write mutex, `copyMsgsCloud` returns.  If no write fails before the
first failing read, the messages written are exactly the messages read before
that read, in order, type and payload unchanged, the error returned is the read
error, and the failing read is the last read or write.  If write number `k` is
the first to fail, the messages written are the first `k + 1` messages read
(the first `k` were delivered), `k + 1` reads were made, the error returned is
that write error, and the failing write is the last read or write. -/
theorem C8_relay_direction (writeMutex : Bool) (dest : Nat → Message → Option String)
    (src : List ReadResult) (e : String) (hend : src.getLast? = some (ReadResult.err e)) :
    (∃ err, (copyMsgsCloud writeMutex dest src).ret = some err) ∧
      (firstWriteFailure dest 0 (readBeforeError src) = none →
        (copyMsgsCloud writeMutex dest src).ret = firstReadError src ∧
          writesOf (copyMsgsCloud writeMutex dest src).trace = readBeforeError src ∧
          deliveredOf (copyMsgsCloud writeMutex dest src).trace = readBeforeError src ∧
          readsOf (copyMsgsCloud writeMutex dest src).trace =
            src.take ((readBeforeError src).length + 1) ∧
          ∃ e1, firstReadError src = some e1 ∧
            (ioOps (copyMsgsCloud writeMutex dest src).trace).getLast? =
              some (IOEvent.read (ReadResult.err e1))) ∧
      (∀ k we, firstWriteFailure dest 0 (readBeforeError src) = some (k, we) →
        (copyMsgsCloud writeMutex dest src).ret = some we ∧
          writesOf (copyMsgsCloud writeMutex dest src).trace =
            (readBeforeError src).take (k + 1) ∧
          deliveredOf (copyMsgsCloud writeMutex dest src).trace = (readBeforeError src).take k ∧
          readsOf (copyMsgsCloud writeMutex dest src).trace = src.take (k + 1) ∧
          ∃ m, (readBeforeError src).get? k = some m ∧ dest k m = some we ∧
            (ioOps (copyMsgsCloud writeMutex dest src).trace).getLast? =
              some (IOEvent.write m (some we))) := by
  obtain ⟨e1, he1⟩ := firstReadError_of_getLast src e hend
  unfold copyMsgsCloud
  have hsecond : ∀ k we, firstWriteFailure dest 0 (readBeforeError src) = some (k, we) →
      (copyMsgsCloudFrom writeMutex dest 0 src).ret = some we ∧
        writesOf (copyMsgsCloudFrom writeMutex dest 0 src).trace =
          (readBeforeError src).take (k + 1) ∧
        deliveredOf (copyMsgsCloudFrom writeMutex dest 0 src).trace =
          (readBeforeError src).take k ∧
        readsOf (copyMsgsCloudFrom writeMutex dest 0 src).trace = src.take (k + 1) ∧
        ∃ m, (readBeforeError src).get? k = some m ∧ dest k m = some we ∧
          (ioOps (copyMsgsCloudFrom writeMutex dest 0 src).trace).getLast? =
            some (IOEvent.write m (some we)) := by
    intro k we hk
    have := copy_write_failure writeMutex dest src 0 k we hk
    simpa using this
  refine ⟨?_, ?_, hsecond⟩
  · cases hf : firstWriteFailure dest 0 (readBeforeError src) with
    | none => exact ⟨e1, (copy_read_failure writeMutex dest src 0 e1 he1 hf).1⟩
    | some kw => exact ⟨kw.2, (hsecond kw.1 kw.2 hf).1⟩
  · intro hf
    obtain ⟨h1, h2, h3, h4, h5⟩ := copy_read_failure writeMutex dest src 0 e1 he1 hf
    exact ⟨by rw [h1, he1], h2, h3, h4, e1, he1, h5⟩

/-- C8 (witness). -/
theorem C8_relay_direction_witness :
    [ReadResult.msg ⟨1, [104, 105]⟩, ReadResult.msg ⟨2, [0, 255]⟩, ReadResult.err "EOF"].getLast? =
        some (ReadResult.err "EOF") ∧
      (∃ err, (copyMsgsCloud true (fun _ _ => none)
          [ReadResult.msg ⟨1, [104, 105]⟩, ReadResult.msg ⟨2, [0, 255]⟩, ReadResult.err "EOF"]).ret = some err) ∧
      (firstWriteFailure (fun _ _ => none) 0 (readBeforeError
          [ReadResult.msg ⟨1, [104, 105]⟩, ReadResult.msg ⟨2, [0, 255]⟩, ReadResult.err "EOF"]) = none →
        (copyMsgsCloud true (fun _ _ => none)
          [ReadResult.msg ⟨1, [104, 105]⟩, ReadResult.msg ⟨2, [0, 255]⟩, ReadResult.err "EOF"]).ret =
            firstReadError [ReadResult.msg ⟨1, [104, 105]⟩, ReadResult.msg ⟨2, [0, 255]⟩, ReadResult.err "EOF"] ∧
          writesOf (copyMsgsCloud true (fun _ _ => none)
          [ReadResult.msg ⟨1, [104, 105]⟩, ReadResult.msg ⟨2, [0, 255]⟩, ReadResult.err "EOF"]).trace =
            readBeforeError [ReadResult.msg ⟨1, [104, 105]⟩, ReadResult.msg ⟨2, [0, 255]⟩, ReadResult.err "EOF"] ∧
          deliveredOf (copyMsgsCloud true (fun _ _ => none)
          [ReadResult.msg ⟨1, [104, 105]⟩, ReadResult.msg ⟨2, [0, 255]⟩, ReadResult.err "EOF"]).trace =
            readBeforeError [ReadResult.msg ⟨1, [104, 105]⟩, ReadResult.msg ⟨2, [0, 255]⟩, ReadResult.err "EOF"] ∧
          readsOf (copyMsgsCloud true (fun _ _ => none)
          [ReadResult.msg ⟨1, [104, 105]⟩, ReadResult.msg ⟨2, [0, 255]⟩, ReadResult.err "EOF"]).trace =
            [ReadResult.msg ⟨1, [104, 105]⟩, ReadResult.msg ⟨2, [0, 255]⟩, ReadResult.err "EOF"].take
              ((readBeforeError [ReadResult.msg ⟨1, [104, 105]⟩, ReadResult.msg ⟨2, [0, 255]⟩, ReadResult.err "EOF"]).length + 1) ∧
          ∃ e1, firstReadError [ReadResult.msg ⟨1, [104, 105]⟩, ReadResult.msg ⟨2, [0, 255]⟩, ReadResult.err "EOF"] = some e1 ∧
            (ioOps (copyMsgsCloud true (fun _ _ => none)
          [ReadResult.msg ⟨1, [104, 105]⟩, ReadResult.msg ⟨2, [0, 255]⟩, ReadResult.err "EOF"]).trace).getLast? =
              some (IOEvent.read (ReadResult.err e1))) ∧
      (∀ k we, firstWriteFailure (fun _ _ => none) 0 (readBeforeError
          [ReadResult.msg ⟨1, [104, 105]⟩, ReadResult.msg ⟨2, [0, 255]⟩, ReadResult.err "EOF"]) = some (k, we) →
        (copyMsgsCloud true (fun _ _ => none)
          [ReadResult.msg ⟨1, [104, 105]⟩, ReadResult.msg ⟨2, [0, 255]⟩, ReadResult.err "EOF"]).ret = some we ∧
          writesOf (copyMsgsCloud true (fun _ _ => none)
          [ReadResult.msg ⟨1, [104, 105]⟩, ReadResult.msg ⟨2, [0, 255]⟩, ReadResult.err "EOF"]).trace =
            (readBeforeError [ReadResult.msg ⟨1, [104, 105]⟩, ReadResult.msg ⟨2, [0, 255]⟩, ReadResult.err "EOF"]).take (k + 1) ∧
          deliveredOf (copyMsgsCloud true (fun _ _ => none)
          [ReadResult.msg ⟨1, [104, 105]⟩, ReadResult.msg ⟨2, [0, 255]⟩, ReadResult.err "EOF"]).trace =
            (readBeforeError [ReadResult.msg ⟨1, [104, 105]⟩, ReadResult.msg ⟨2, [0, 255]⟩, ReadResult.err "EOF"]).take k ∧
          readsOf (copyMsgsCloud true (fun _ _ => none)
          [ReadResult.msg ⟨1, [104, 105]⟩, ReadResult.msg ⟨2, [0, 255]⟩, ReadResult.err "EOF"]).trace =
            [ReadResult.msg ⟨1, [104, 105]⟩, ReadResult.msg ⟨2, [0, 255]⟩, ReadResult.err "EOF"].take (k + 1) ∧
          ∃ m, (readBeforeError [ReadResult.msg ⟨1, [104, 105]⟩, ReadResult.msg ⟨2, [0, 255]⟩, ReadResult.err "EOF"]).get? k = some m ∧
            (fun (_ : Nat) (_ : Message) => (none : Option String)) k m = some we ∧
            (ioOps (copyMsgsCloud true (fun _ _ => none)
          [ReadResult.msg ⟨1, [104, 105]⟩, ReadResult.msg ⟨2, [0, 255]⟩, ReadResult.err "EOF"]).trace).getLast? =
              some (IOEvent.write m (some we))) :=
  ⟨by decide,
    C8_relay_direction true (fun _ _ => none)
      [ReadResult.msg ⟨1, [104, 105]⟩, ReadResult.msg ⟨2, [0, 255]⟩, ReadResult.err "EOF"]
      "EOF" (by decide)⟩

/-- C9 (counterexample).  The validator rejects the origin of this upgrade
request, and the run has dialled the backend before the upgrade fails. -/
theorem C9_backend_dialled_before_rejection :
    isWebsocket goEnv [("Upgrade", ["websocket"]), ("Origin", ["https://evil.example:443"])] =
        true ∧
      CheckOrigin goEnv "https://console.example:443"
        [("Upgrade", ["websocket"]), ("Origin", ["https://evil.example:443"])] = some false ∧
      ServeHTTPCloud goEnv ⟨[], ⟨"https", "k8s:6443"⟩, "https://console.example:443"⟩
          ⟨DialResult.ok, true, true⟩
          ⟨[("Upgrade", ["websocket"]), ("Origin", ["https://evil.example:443"])], []⟩ =
        [Event.dial [("Origin", ["https://evil.example:443", "http://localhost"])],
          Event.upgrade [""], Event.upgradeFailed, Event.backendClose] := by
  decide

/-- C9 (amended).  In every run on an upgrade request whose origin the validator
rejects, no client-facing WebSocket connection is established and nothing is
relayed.  The backend dial is the first step of the run; when it fails the run
ends with the error response, and when it succeeds the upgrade fails and the
backend connection is closed before the handler returns. -/
theorem C9_origin_rejected (env : Env) (cfg : ConfigCloud) (w : World) (r : Request)
    (hw : isWebsocket env r.Header = true)
    (hrej : CheckOrigin env cfg.Origin r.Header = some false) :
    Event.frontendOpen ∉ ServeHTTPCloud env cfg w r ∧
      Event.relay ∉ ServeHTTPCloud env cfg w r ∧
      ∃ h, (∀ resp, w.dial = DialResult.failed resp →
          ServeHTTPCloud env cfg w r = [Event.dial h, Event.httpError (dialStatusCode resp)]) ∧
        (w.dial = DialResult.ok →
          ∃ sub, ServeHTTPCloud env cfg w r =
            [Event.dial h, Event.upgrade [sub], Event.upgradeFailed, Event.backendClose]) := by
  have hrej2 : CheckOrigin env cfg.Origin (stripBlacklist r.Header) = some false := by
    rw [checkOrigin_stripBlacklist]
    exact hrej
  have hup : Upgrade w (some false) = UpgradeResult.failed := by
    unfold Upgrade
    cases w.handshakeOk <;> simp
  unfold ServeHTTPCloud
  simp only [hw, Bool.not_true, Bool.false_eq_true, if_false, hrej2, hup]
  cases hd : w.dial with
  | failed resp =>
    refine ⟨by simp, by simp, (proxiedHeaderOf (stripBlacklist r.Header) r.Query).1, ?_, ?_⟩
    · intro resp2 h2
      cases h2
      rfl
    · intro h2
      cases h2
  | ok =>
    refine ⟨by simp, by simp, (proxiedHeaderOf (stripBlacklist r.Header) r.Query).1, ?_, ?_⟩
    · intro resp2 h2
      cases h2
    · intro _
      exact ⟨_, rfl⟩

/-- C9 (witness). -/
theorem C9_origin_rejected_witness :
    isWebsocket goEnv [("Upgrade", ["websocket"]), ("Origin", ["https://evil.example:443"])] = true ∧
      CheckOrigin goEnv "https://console.example:443"
        [("Upgrade", ["websocket"]), ("Origin", ["https://evil.example:443"])] = some false ∧
      Event.frontendOpen ∉
        ServeHTTPCloud goEnv ⟨[], ⟨"https", "k8s:6443"⟩, "https://console.example:443"⟩
          ⟨DialResult.ok, true, true⟩ ⟨[("Upgrade", ["websocket"]), ("Origin", ["https://evil.example:443"])], []⟩ ∧
      Event.relay ∉
        ServeHTTPCloud goEnv ⟨[], ⟨"https", "k8s:6443"⟩, "https://console.example:443"⟩
          ⟨DialResult.ok, true, true⟩ ⟨[("Upgrade", ["websocket"]), ("Origin", ["https://evil.example:443"])], []⟩ ∧
      ∃ h, (∀ resp, (World.mk DialResult.ok true true).dial = DialResult.failed resp →
          ServeHTTPCloud goEnv ⟨[], ⟨"https", "k8s:6443"⟩, "https://console.example:443"⟩
          ⟨DialResult.ok, true, true⟩ ⟨[("Upgrade", ["websocket"]), ("Origin", ["https://evil.example:443"])], []⟩ =
            [Event.dial h, Event.httpError (dialStatusCode resp)]) ∧
        ((World.mk DialResult.ok true true).dial = DialResult.ok →
          ∃ sub, ServeHTTPCloud goEnv ⟨[], ⟨"https", "k8s:6443"⟩, "https://console.example:443"⟩
          ⟨DialResult.ok, true, true⟩ ⟨[("Upgrade", ["websocket"]), ("Origin", ["https://evil.example:443"])], []⟩ =
            [Event.dial h, Event.upgrade [sub], Event.upgradeFailed, Event.backendClose]) :=
  ⟨by decide, by decide,
    C9_origin_rejected goEnv ⟨[], ⟨"https", "k8s:6443"⟩, "https://console.example:443"⟩
      ⟨DialResult.ok, true, true⟩
      ⟨[("Upgrade", ["websocket"]), ("Origin", ["https://evil.example:443"])], []⟩
      (by decide) (by decide)⟩

/-- C10 (defect in the code).  With a configured origin, a request whose
`Origin` value is `:` makes `url.Parse` fail (`missing protocol scheme`), and the
check dereferences the nil result: it panics instead of returning a boolean.
The same happens when the configured origin itself does not parse. -/
theorem C10_unparseable_origin_panics :
    urlParse ":" = none ∧
      CheckOrigin goEnv "https://host:8443" [("Origin", [":"])] = none ∧
      CheckOrigin goEnv ":" [("Origin", ["https://host:8443"])] = none ∧
      ServeHTTPCloud goEnv ⟨[], ⟨"https", "k8s:6443"⟩, "https://host:8443"⟩
          ⟨DialResult.ok, true, true⟩
          ⟨[("Upgrade", ["websocket"]), ("Origin", [":"])], []⟩ =
        [Event.dial [("Origin", [":", "http://localhost"])], Event.upgrade [""], Event.panic,
          Event.backendClose] := by
  decide

end Proxy
